import Mathlib

/-!
Verification development for a forecasting / capacity-planning engine.

The embedding models the core modules of the repository:
  * `fcp/metrics.py`   : `mae`, `smape`, `_align`
  * `fcp/planning.py`  : `PlanningConfig`, `recommend_capacity`, `evaluate_capacity_cost`
  * `fcp/models.py`    : `SeasonalNaiveForecaster`
  * `fcp/ridge_forecaster.py` : `RidgeForecaster.predict` and its feature helper
  * `fcp/backtest.py`  : `BacktestConfig`, `BacktestResult`, `rolling_origin_backtest`

Modelling conventions:
  * A pandas `Series` indexed by timestamps becomes a list of
    (timestamp, value) pairs.  Timestamps are integers (the number of
    frequency periods since an arbitrary epoch); adding one frequency
    offset (`ts + to_offset(freq)`) becomes integer addition of `freq`.
  * Python floats are modelled as exact rationals.
  * Raised exceptions become `Except.error` values of a structured error
    type whose constructors record the exception class and message.
-/

namespace Fcp

/-- Errors raised by the core.  `valueError` and `runtimeError` model Python
`ValueError` / `RuntimeError` with the given message.  `insufficientData`
models the `ValueError` raised by `rolling_origin_backtest` whose f-string
message interpolates the required point count (`min_train_points + horizon`)
and the available point count (`len(y)`); the two interpolated numbers are
kept structurally.  `fuelExhausted` is an artefact of the bounded loop
encoding and is never produced for a terminating source-level run. -/
inductive Err where
  | valueError (msg : String)
  | runtimeError (msg : String)
  | insufficientData (required available : Int)
  | fuelExhausted
  deriving DecidableEq

/-- Timestamps: integer number of frequency periods since an epoch. -/
abbrev Timestamp := Int

/-- A pandas Series: ordered (timestamp, value) pairs. -/
abbrev Series := List (Timestamp × ℚ)

/-- The timestamp index of a series (`s.index`). -/
def Series.index (s : Series) : List Timestamp := s.map Prod.fst

/-- The value array of a series (`s.values`). -/
def Series.values (s : Series) : List ℚ := s.map Prod.snd

/-- Label lookup (`s.loc[t]` / membership in `s.index`): the value stored at
the first occurrence of label `t`, if present. -/
def Series.lookup (s : Series) (t : Timestamp) : Option ℚ :=
  match s with
  | [] => none
  | p :: rest => if p.1 = t then some p.2 else Series.lookup rest t

/-- Positional timestamp access `y.index[i]` for a Python integer index,
including Python negative-index semantics. -/
def Series.ilocTs (y : Series) (i : Int) : Timestamp :=
  if i < 0 then (Series.index y).getD (y.length - (-i).toNat) 0
  else (Series.index y).getD i.toNat 0

/-- Embedding of `pd.date_range(start=start, periods=periods, freq=freq)`. -/
def dateRange (start : Timestamp) (periods : Nat) (freq : Int) : List Timestamp :=
  (List.range periods).map fun k : Nat => start + (k : Int) * freq

/-- Embedding of `np.mean` over a list of rationals. -/
def mean (xs : List ℚ) : ℚ := xs.sum / (xs.length : ℚ)

/-! ## Metrics (`fcp/metrics.py`) -/

/-- The common timestamp index `y_true.index.intersection(y_pred.index)`,
in `y_true` order. -/
def commonIdx (y_true y_pred : Series) : List Timestamp :=
  (Series.index y_true).filter fun t => (Series.index y_pred).contains t

/-- The two aligned value arrays `y_true.loc[common_idx]`,
`y_pred.loc[common_idx]`, zipped into pairs (actual, predicted).  For
`t ∈ commonIdx` both lookups are `some`, so the default is never used. -/
def alignPairs (y_true y_pred : Series) : List (ℚ × ℚ) :=
  (commonIdx y_true y_pred).map fun t =>
    ((Series.lookup y_true t).getD 0, (Series.lookup y_pred t).getD 0)

/-- Embedding of `_align(y_true, y_pred)`: raises when the timestamp intersection is
empty, otherwise returns the aligned pair of value arrays. -/
def _align (y_true y_pred : Series) : Except Err (List (ℚ × ℚ)) :=
  if commonIdx y_true y_pred = [] then
    .error (.valueError "y_true and y_pred have no overlapping timestamps to compare.")
  else .ok (alignPairs y_true y_pred)

/-- Embedding of `mae(y_true, y_pred)`. -/
def mae (y_true y_pred : Series) : Except Err ℚ :=
  (_align y_true y_pred).map fun pairs => mean (pairs.map fun ap => |ap.1 - ap.2|)

/-- The default `eps` argument of `smape`: `1e-8`. -/
def defaultEps : ℚ := 1 / 100000000

/-- Embedding of `smape(y_true, y_pred, eps)`. -/
def smape (y_true y_pred : Series) (eps : ℚ) : Except Err ℚ :=
  (_align y_true y_pred).map fun pairs =>
    100 * mean (pairs.map fun ap => 2 * |ap.2 - ap.1| / max (|ap.1| + |ap.2|) eps)

/-! ## Planning (`fcp/planning.py`) -/

/-- The `PlanningConfig` dataclass. -/
structure PlanningConfig where
  service_level : ℚ
  units_per_capacity : ℚ
  over_capacity_cost : ℚ
  under_capacity_cost : ℚ
  deriving DecidableEq

/-- The value `np.quantile(s, q)` computes with its default linear
interpolation method on a non-empty sorted sample `s`:
virtual position `q * (n - 1)`, then linear interpolation between the two
neighbouring order statistics (the upper index is clipped to `n - 1`). -/
def linearQuantile (s : List ℚ) (q : ℚ) : ℚ :=
  let n := s.length
  let pos := q * ((n : ℚ) - 1)
  let i := (⌊pos⌋).toNat
  let g := pos - (i : ℚ)
  let x0 := s.getD i 0
  let x1 := s.getD (min (i + 1) (n - 1)) 0
  x0 + g * (x1 - x0)

/-- Insert into a sorted list, keeping ascending order. -/
def insertSorted (x : ℚ) : List ℚ → List ℚ
  | [] => [x]
  | y :: ys => if x ≤ y then x :: y :: ys else y :: insertSorted x ys

/-- Sort ascending (the sort `np.quantile` performs internally). -/
def sortAsc (xs : List ℚ) : List ℚ := xs.foldr insertSorted []

/-- Embedding of `np.quantile(xs, q)` for `q ∈ [0, 1]`: raises on an empty sample,
otherwise sorts and interpolates linearly. -/
def npQuantile (xs : List ℚ) (q : ℚ) : Except Err ℚ :=
  if xs = [] then .error (.valueError "zero-size array to reduction operation fmin which has no identity")
  else .ok (linearQuantile (sortAsc xs) q)

/-- The row returned by `recommend_capacity` (a one-row DataFrame in the
source).  `demand_quantile` holds the raw quantile; the source additionally
rounds it to three decimals for the display column name and value, which no
further computation reads. -/
structure Recommendation where
  demand_quantile : ℚ
  units_per_capacity : ℚ
  recommended_capacity : Int
  over_capacity_cost : ℚ
  under_capacity_cost : ℚ
  deriving DecidableEq

/-- Embedding of `recommend_capacity(demand_forecast, cfg)`. -/
def recommend_capacity (demand_forecast : Series) (cfg : PlanningConfig) :
    Except Err Recommendation :=
  if ¬ (1/2 ≤ cfg.service_level ∧ cfg.service_level < 1) then
    .error (.valueError "service_level should be in [0.5, 1.0).")
  else if cfg.units_per_capacity ≤ 0 then
    .error (.valueError "units_per_capacity must be > 0.")
  else
    (npQuantile (Series.values demand_forecast) cfg.service_level).map fun demand_quantile =>
      ⟨demand_quantile, cfg.units_per_capacity,
        ⌈demand_quantile / cfg.units_per_capacity⌉,
        cfg.over_capacity_cost, cfg.under_capacity_cost⟩

/-- Embedding of `evaluate_capacity_cost(actual_demand, capacity, cfg)`. -/
def evaluate_capacity_cost (actual_demand : Series) (capacity : Int)
    (cfg : PlanningConfig) : Except Err ℚ :=
  if capacity < 0 then .error (.valueError "capacity must be >= 0")
  else
    let required := (Series.values actual_demand).map fun d =>
      ((⌈d / cfg.units_per_capacity⌉ : Int) : ℚ)
    let over := required.map fun r => max ((capacity : ℚ) - r) 0
    let under := required.map fun r => max (r - (capacity : ℚ)) 0
    .ok (cfg.over_capacity_cost * over.sum + cfg.under_capacity_cost * under.sum)

/-! ## Seasonal naive forecaster (`fcp/models.py`) -/

/-- The `SeasonalNaiveConfig` dataclass.  Its `season_length` is a Python int. -/
structure SeasonalNaiveConfig where
  season_length : Int
  deriving DecidableEq

/-- The `SeasonalNaiveForecaster` object state.  Here `_y = none` models the state
before `fit` has run (the `hasattr(self, "_y")` check). -/
structure SeasonalNaiveForecaster where
  config : SeasonalNaiveConfig
  _y : Option Series
  deriving DecidableEq

/-- Embedding of `SeasonalNaiveForecaster.__init__`: validates `season_length > 0`. -/
def SeasonalNaiveForecaster.init (config : SeasonalNaiveConfig) :
    Except Err SeasonalNaiveForecaster :=
  if config.season_length ≤ 0 then .error (.valueError "season_length must be > 0")
  else .ok ⟨config, none⟩

/-- Embedding of `SeasonalNaiveForecaster.fit(y)`: requires at least `season_length`
points, then stores the history. -/
def SeasonalNaiveForecaster.fit (m : SeasonalNaiveForecaster) (y : Series) :
    Except Err SeasonalNaiveForecaster :=
  if (y.length : Int) < m.config.season_length then
    .error (.valueError "Not enough history to fit seasonal naive model.")
  else .ok ⟨m.config, some y⟩

/-- Embedding of `np.tile(l, reps)` for a one-dimensional array. -/
def tile (l : List ℚ) (reps : Nat) : List ℚ := (List.replicate reps l).flatten

/-- Embedding of `SeasonalNaiveForecaster.predict(start, horizon, freq)`.  The horizon
check precedes the fitted-state check, as in the source.  The slice
`self._y.iloc[-season_length:]` becomes a `drop`, `np.ceil(horizon /
season_length)` on positive ints becomes `(h + s - 1) / s`. -/
def SeasonalNaiveForecaster.predict (m : SeasonalNaiveForecaster)
    (start : Timestamp) (horizon : Int) (freq : Int) : Except Err Series :=
  if horizon ≤ 0 then .error (.valueError "horizon must be > 0")
  else
    match m._y with
    | none => .error (.runtimeError "Model must be fit before predicting.")
    | some y =>
      let idx := dateRange start horizon.toNat freq
      let s := m.config.season_length.toNat
      let last_season := (Series.values y).drop (y.length - s)
      let reps := (horizon.toNat + s - 1) / s
      let vals := (tile last_season reps).take horizon.toNat
      .ok (idx.zip vals)

/-! ## Ridge forecaster (`fcp/ridge_forecaster.py`)

Only the object state and `predict` (with its feature helper) are embedded;
the trained scikit-learn regressor produced by `fit` is abstracted as a
function from a feature row to a prediction, carried in the state. -/

/-- The `RidgeForecasterConfig` dataclass. -/
structure RidgeForecasterConfig where
  lags : List Int
  rolling_windows : List Int
  alpha : ℚ

/-- The `RidgeForecaster` object state.  Here `model` abstracts the trained
scikit-learn `Ridge` regressor (`self.model.predict` on one row);
`_y_train = none` models the state before `fit` has run
(the `hasattr(self, "_y_train")` check). -/
structure RidgeForecaster where
  cfg : RidgeForecasterConfig
  model : List ℚ → ℚ
  _y_train : Option Series

/-- Embedding of `RidgeForecaster._build_single_feature_row(history)`: one lag value per
configured lag (`history.iloc[-lag]`) followed by one rolling mean per
configured window (`history.iloc[-w:].mean()`), each guarded by a history
length check. -/
def buildSingleFeatureRow (cfg : RidgeForecasterConfig) (history : Series) :
    Except Err (List ℚ) := do
  let lagVals ← cfg.lags.mapM fun lag =>
    if (history.length : Int) < lag then
      Except.error (Err.valueError "Not enough history to compute required lag features.")
    else Except.ok ((Series.values history).getD (history.length - lag.toNat) 0)
  let rollVals ← cfg.rolling_windows.mapM fun w =>
    if (history.length : Int) < w then
      Except.error (Err.valueError "Not enough history to compute required rolling features.")
    else Except.ok (mean ((Series.values history).drop (history.length - w.toNat)))
  Except.ok (lagVals ++ rollVals)

/-- Embedding of `history.loc[ts] = yhat`: overwrite the value at an existing label,
append a new (label, value) pair otherwise. -/
def Series.locSet (s : Series) (t : Timestamp) (v : ℚ) : Series :=
  if (Series.index s).contains t then s.map fun p => if p.1 = t then (p.1, v) else p
  else s ++ [(t, v)]

/-- The body of the `for ts in idx` loop of `RidgeForecaster.predict`:
builds a feature row from the working history, applies the regressor,
records the prediction and appends it to the working history for the
following steps.  Returns the predictions together with the final working
history. -/
def ridgePredictLoop (cfg : RidgeForecasterConfig) (model : List ℚ → ℚ) :
    List Timestamp → Series → Except Err (List ℚ × Series)
  | [], history => .ok ([], history)
  | ts :: rest, history => do
    let x ← buildSingleFeatureRow cfg history
    let yhat := model x
    let tl ← ridgePredictLoop cfg model rest (Series.locSet history ts yhat)
    .ok (yhat :: tl.1, tl.2)

/-- Embedding of `RidgeForecaster.predict(start, horizon, freq)`.  The working history
starts as `self._y_train.copy()`; the loop extends only that local copy.
The pair in the result carries the returned prediction series together
with the post-call object state. -/
def RidgeForecaster.predict (m : RidgeForecaster) (start : Timestamp)
    (horizon : Int) (freq : Int) : Except Err (Series × RidgeForecaster) :=
  if horizon ≤ 0 then .error (.valueError "horizon must be > 0")
  else
    match m._y_train with
    | none => .error (.runtimeError "Model must be fit before predicting.")
    | some y_train =>
      let idx := dateRange start horizon.toNat freq
      (ridgePredictLoop m.cfg m.model idx y_train).map fun pr => (idx.zip pr.1, m)

/-! ## Backtest engine (`fcp/backtest.py`) -/

/-- The `BacktestConfig` dataclass. -/
structure BacktestConfig where
  horizon : Int
  step : Int
  min_train_points : Int
  deriving DecidableEq

/-- The `BacktestResult` dataclass. -/
structure BacktestResult where
  fold : Nat
  cutoff : Timestamp
  horizon : Int
  mae : ℚ
  smape : ℚ
  recommended_capacity : Int
  planning_cost : ℚ
  deriving DecidableEq

/-- The `Forecaster` protocol, over an abstract state type `M`:
`fit` returns the fitted state, `predict(start, horizon, freq)` the
forecast series.  Either may fail. -/
structure ForecasterImpl (M : Type) where
  fit : M → Series → Except Err M
  predict : M → Timestamp → Int → Int → Except Err Series

/-- Embedding of `preds.reindex(labels)` inside the missing-actuals branch of the fold.
A label absent from `preds` would become `NaN` there; that `NaN` then
reaches `int(...)` inside `recommend_capacity` on this same fold and
aborts the run with a `ValueError`, which this encoding surfaces at the
reindex itself (no claim distinguishes the two abort points). -/
def reindexStrict (preds : Series) (labels : List Timestamp) : Except Err Series :=
  labels.mapM fun t =>
    match Series.lookup preds t with
    | some v => Except.ok (t, v)
    | none => Except.error (Err.valueError "cannot convert float NaN to integer")

/-- The `preds_clean` selection of the fold body: inside the
missing-actuals branch the predictions are reindexed onto the cleaned test
labels, otherwise they are used as returned by the forecaster. -/
def predsClean (anyNa : Bool) (preds : Series) (labels : List Timestamp) :
    Except Err Series :=
  if anyNa then reindexStrict preds labels else .ok preds

/-- One iteration of the fold loop of `rolling_origin_backtest`, for fold
number `fold` at integer cutoff index `cutoff_idx`. -/
def runFold {M : Type} (F : ForecasterImpl M) (model_factory : Unit → Except Err M)
    (y : Series) (freq : Int) (cfg : BacktestConfig)
    (service_level units_per_capacity over_capacity_cost under_capacity_cost : ℚ)
    (fold : Nat) (cutoff_idx : Int) : Except Err BacktestResult := do
  let cutoff_ts := Series.ilocTs y cutoff_idx
  let train := y.take (cutoff_idx + 1).toNat
  let test_start := cutoff_ts + freq
  let test_idx := dateRange test_start cfg.horizon.toNat freq
  let test := test_idx.map fun t => (t, Series.lookup y t)
  let model ← model_factory ()
  let fitted ← F.fit model train
  let preds ← F.predict fitted test_start cfg.horizon freq
  let anyNa := test.any fun p => p.2.isNone
  let test_clean : Series :=
    if anyNa then test.filterMap fun p => p.2.map fun v => (p.1, v)
    else test.map fun p => (p.1, p.2.getD 0)
  let preds_clean ← predsClean anyNa preds (Series.index test_clean)
  let p_cfg : PlanningConfig :=
    ⟨service_level, units_per_capacity, over_capacity_cost, under_capacity_cost⟩
  let recRow ← recommend_capacity preds_clean p_cfg
  let recommended_capacity := recRow.recommended_capacity
  let planning_cost ← evaluate_capacity_cost test_clean recommended_capacity p_cfg
  let maeV ← mae test_clean preds_clean
  let smapeV ← smape test_clean preds_clean defaultEps
  Except.ok ⟨fold, cutoff_ts, cfg.horizon, maeV, smapeV, recommended_capacity, planning_cost⟩

/-- The `while cutoff_idx <= last_possible_cutoff_idx` loop.  `fuel` bounds
the number of iterations; the caller passes a fuel that dominates the
iteration count of every valid run, so `Err.fuelExhausted` is never
produced there. -/
def backtestLoop {M : Type} (F : ForecasterImpl M) (model_factory : Unit → Except Err M)
    (y : Series) (freq : Int) (cfg : BacktestConfig) (sl u oc uc : ℚ)
    (lastIdx : Int) : Nat → Nat → Int → Except Err (List BacktestResult)
  | 0, _, _ => .error .fuelExhausted
  | fuel + 1, fold, cutoff_idx =>
    if cutoff_idx ≤ lastIdx then do
      let r ← runFold F model_factory y freq cfg sl u oc uc (fold + 1) cutoff_idx
      let rest ← backtestLoop F model_factory y freq cfg sl u oc uc lastIdx fuel
        (fold + 1) (cutoff_idx + cfg.step)
      Except.ok (r :: rest)
    else .ok []

/-- The cutoff indices the fold loop visits, with the same bounded-loop
encoding as `backtestLoop`. -/
def cutoffLoop (lastIdx step : Int) : Nat → Int → List Int
  | 0, _ => []
  | fuel + 1, cutoff_idx =>
    if cutoff_idx ≤ lastIdx then cutoff_idx :: cutoffLoop lastIdx step fuel (cutoff_idx + step)
    else []

/-- The full list of cutoff indices generated for a series of length `n`:
first cutoff at `min_train_points - 1`, advancing by `step`, last admissible
index `n - horizon - 1`. -/
def cutoffIndices (cfg : BacktestConfig) (n : Nat) : List Int :=
  cutoffLoop ((n : Int) - cfg.horizon - 1) cfg.step (n + 1) (cfg.min_train_points - 1)

/-- Embedding of `rolling_origin_backtest(y, freq, cfg, model_factory, service_level,
units_per_capacity, over_capacity_cost, under_capacity_cost)`.  The
`PlanningConfig` the source rebuilds (identically) on each fold is built
inside `runFold` from the same four scalars; the local names `required`
and `available` of the source are inlined into the validation tests. -/
def rolling_origin_backtest {M : Type} (F : ForecasterImpl M)
    (model_factory : Unit → Except Err M) (y : Series) (freq : Int)
    (cfg : BacktestConfig) (sl u oc uc : ℚ) : Except Err (List BacktestResult) :=
  if cfg.horizon ≤ 0 ∨ cfg.step ≤ 0 then
    .error (.valueError "horizon and step must be > 0")
  else if (y.length : Int) < cfg.min_train_points + cfg.horizon then
    .error (.insufficientData (cfg.min_train_points + cfg.horizon) (y.length : Int))
  else
    backtestLoop F model_factory y freq cfg sl u oc uc
      ((y.length : Int) - cfg.horizon - 1) (y.length + 1) 0 (cfg.min_train_points - 1)

/-- Embedding of `build_seasonal_naive_factory(season_length)`: each call of the factory
constructs a fresh `SeasonalNaiveForecaster`. -/
def build_seasonal_naive_factory (season_length : Int) :
    Unit → Except Err SeasonalNaiveForecaster :=
  fun _ => SeasonalNaiveForecaster.init ⟨season_length⟩

/-- The `Forecaster` protocol methods of `SeasonalNaiveForecaster`. -/
def seasonalImpl : ForecasterImpl SeasonalNaiveForecaster :=
  ⟨SeasonalNaiveForecaster.fit, SeasonalNaiveForecaster.predict⟩

/-! ## General helper lemmas -/

deriving instance DecidableEq for Except

theorem except_bind_ok {ε α β : Type} {e : Except ε α} {f : α → Except ε β} {b : β}
    (h : e >>= f = .ok b) : ∃ a, e = .ok a ∧ f a = .ok b := by
  cases e with
  | error err => simp only [bind, Except.bind] at h; exact absurd h (by simp)
  | ok a => exact ⟨a, rfl, h⟩

theorem except_map_ok {ε α β : Type} {e : Except ε α} {f : α → β} {b : β}
    (h : e.map f = .ok b) : ∃ a, e = .ok a ∧ f a = b := by
  cases e with
  | error err => simp [Except.map] at h
  | ok a =>
    refine ⟨a, rfl, ?_⟩
    simpa [Except.map] using h

theorem mean_nonneg {xs : List ℚ} (h : ∀ x ∈ xs, 0 ≤ x) : 0 ≤ mean xs :=
  div_nonneg (List.sum_nonneg h) (by positivity)

theorem commonIdx_self {x : Series} : commonIdx x x = Series.index x := by
  unfold commonIdx
  apply List.filter_eq_self.mpr
  intro t ht
  simpa [List.contains, List.elem_iff] using ht

theorem commonIdx_ne_nil_of_ne_nil {x : Series} (hx : x ≠ []) :
    commonIdx x x ≠ [] := by
  rw [commonIdx_self]
  unfold Series.index
  simpa [List.map_eq_nil_iff] using hx

/-! ## Claims about the metric functions -/

/-- C10: `smape(x, x) = 0` for every non-empty series `x` and every positive
epsilon, including series that contain zero values: the numerator of every
aligned term is identically zero while the epsilon guard keeps the
denominator positive. -/
theorem smape_self_eq_zero (x : Series) (hx : x ≠ []) (eps : ℚ) (_heps : 0 < eps) :
    smape x x eps = .ok 0 := by
  unfold smape _align
  rw [if_neg (commonIdx_ne_nil_of_ne_nil hx)]
  simp only [Except.map, Except.ok.injEq]
  have hz : (alignPairs x x).map
      (fun ap => 2 * |ap.2 - ap.1| / max (|ap.1| + |ap.2|) eps) =
      (commonIdx x x).map fun _ => 0 := by
    unfold alignPairs
    rw [List.map_map]
    apply List.map_congr_left
    intro t _
    simp
  rw [hz]
  unfold mean
  rw [List.sum_eq_zero (by simp)]
  simp

/-- C10 witness: a concrete series containing a zero-zero pair. -/
theorem smape_self_eq_zero_witness :
    ([(0, 0), (1, 5)] : Series) ≠ [] ∧ (0 : ℚ) < 1 ∧
      smape [(0, 0), (1, 5)] [(0, 0), (1, 5)] 1 = .ok 0 :=
  ⟨by decide, by norm_num, smape_self_eq_zero [(0, 0), (1, 5)] (by decide) 1 (by norm_num)⟩

/-- C7: `mae` and `smape` compare the two series over the intersection of
their timestamps, fail with the alignment error exactly when that
intersection is empty, and on a non-empty overlap both return a
non-negative value, `smape` returning
`100 * mean(2 * |pred - actual| / max(|actual| + |pred|, eps))` at the
default epsilon `1e-8`.  The no-duplicate-timestamp hypotheses record the
data-model invariant under which the list embedding matches pandas label
alignment. -/
theorem mae_smape_alignment (y_true y_pred : Series)
    (_hndt : (Series.index y_true).Nodup) (_hndp : (Series.index y_pred).Nodup) :
    (commonIdx y_true y_pred = [] ↔
      mae y_true y_pred =
        .error (.valueError "y_true and y_pred have no overlapping timestamps to compare.")) ∧
    (commonIdx y_true y_pred = [] ↔
      smape y_true y_pred defaultEps =
        .error (.valueError "y_true and y_pred have no overlapping timestamps to compare.")) ∧
    (commonIdx y_true y_pred ≠ [] →
      ∃ m s, mae y_true y_pred = .ok m ∧ smape y_true y_pred defaultEps = .ok s ∧
        0 ≤ m ∧ 0 ≤ s ∧
        s = 100 * mean ((alignPairs y_true y_pred).map fun ap =>
              2 * |ap.2 - ap.1| / max (|ap.1| + |ap.2|) defaultEps)) := by
  refine ⟨?_, ?_, ?_⟩
  · constructor
    · intro h
      unfold mae _align
      rw [if_pos h]
      rfl
    · intro h
      by_contra hne
      unfold mae _align at h
      rw [if_neg hne] at h
      exact absurd h (by simp [Except.map])
  · constructor
    · intro h
      unfold smape _align
      rw [if_pos h]
      rfl
    · intro h
      by_contra hne
      unfold smape _align at h
      rw [if_neg hne] at h
      exact absurd h (by simp [Except.map])
  · intro hne
    refine ⟨mean ((alignPairs y_true y_pred).map fun ap => |ap.1 - ap.2|),
      100 * mean ((alignPairs y_true y_pred).map fun ap =>
        2 * |ap.2 - ap.1| / max (|ap.1| + |ap.2|) defaultEps), ?_, ?_, ?_, ?_, rfl⟩
    · unfold mae _align
      rw [if_neg hne]
      rfl
    · unfold smape _align
      rw [if_neg hne]
      rfl
    · apply mean_nonneg
      intro v hv
      obtain ⟨ap, _, rfl⟩ := List.mem_map.mp hv
      positivity
    · have h0 : 0 ≤ mean ((alignPairs y_true y_pred).map fun ap =>
          2 * |ap.2 - ap.1| / max (|ap.1| + |ap.2|) defaultEps) := by
        apply mean_nonneg
        intro v hv
        obtain ⟨ap, _, rfl⟩ := List.mem_map.mp hv
        apply div_nonneg (by positivity)
        exact le_trans (by positivity) (le_max_left _ _)
      linarith


/-- C7 witness: two series with a partial (non-empty) overlap. -/
theorem mae_smape_alignment_witness :
    (Series.index [(0, 1), (1, 2)]).Nodup ∧ (Series.index [(1, 2), (2, 5)]).Nodup ∧
      (∃ m s, mae [(0, 1), (1, 2)] [(1, 2), (2, 5)] = .ok m ∧
        smape [(0, 1), (1, 2)] [(1, 2), (2, 5)] defaultEps = .ok s ∧
        0 ≤ m ∧ 0 ≤ s ∧
        s = 100 * mean ((alignPairs [(0, 1), (1, 2)] [(1, 2), (2, 5)]).map fun ap =>
              2 * |ap.2 - ap.1| / max (|ap.1| + |ap.2|) defaultEps)) :=
  ⟨by decide, by decide,
    (mae_smape_alignment [(0, 1), (1, 2)] [(1, 2), (2, 5)]
      (by decide) (by decide)).2.2 (by decide)⟩

/-! ## Claims about the planning module -/

/-- C6: for a non-negative capacity, `evaluate_capacity_cost` returns
`over_capacity_cost * Σ max(capacity - ceil(demand / units_per_capacity), 0)
+ under_capacity_cost * Σ max(ceil(demand / units_per_capacity) - capacity,
0)` summed over all periods; it fails with the invalid-argument error when
`capacity < 0`; and it returns `0` whenever the capacity equals the ceiling
requirement in every period. -/
theorem evaluate_capacity_cost_spec (actual_demand : Series) (capacity : Int)
    (cfg : PlanningConfig) (_hu : 0 < cfg.units_per_capacity) :
    (0 ≤ capacity →
      evaluate_capacity_cost actual_demand capacity cfg = .ok
        (cfg.over_capacity_cost *
          ((Series.values actual_demand).map fun d =>
            max ((capacity : ℚ) - ((⌈d / cfg.units_per_capacity⌉ : Int) : ℚ)) 0).sum +
         cfg.under_capacity_cost *
          ((Series.values actual_demand).map fun d =>
            max (((⌈d / cfg.units_per_capacity⌉ : Int) : ℚ) - (capacity : ℚ)) 0).sum)) ∧
    (capacity < 0 →
      evaluate_capacity_cost actual_demand capacity cfg =
        .error (.valueError "capacity must be >= 0")) ∧
    ((∀ d ∈ Series.values actual_demand, ⌈d / cfg.units_per_capacity⌉ = capacity) →
      0 ≤ capacity → evaluate_capacity_cost actual_demand capacity cfg = .ok 0) := by
  refine ⟨?_, ?_, ?_⟩
  · intro hc
    unfold evaluate_capacity_cost
    rw [if_neg (not_lt.mpr hc)]
    simp only [List.map_map, Function.comp_def]
  · intro hc
    unfold evaluate_capacity_cost
    rw [if_pos hc]
  · intro hexact hc
    unfold evaluate_capacity_cost
    rw [if_neg (not_lt.mpr hc)]
    simp only [List.map_map, Function.comp_def]
    have hover : ((Series.values actual_demand).map fun d =>
        max ((capacity : ℚ) - ((⌈d / cfg.units_per_capacity⌉ : Int) : ℚ)) 0).sum = 0 := by
      apply List.sum_eq_zero
      intro v hv
      obtain ⟨d, hd, rfl⟩ := List.mem_map.mp hv
      rw [hexact d hd]
      simp
    have hunder : ((Series.values actual_demand).map fun d =>
        max (((⌈d / cfg.units_per_capacity⌉ : Int) : ℚ) - (capacity : ℚ)) 0).sum = 0 := by
      apply List.sum_eq_zero
      intro v hv
      obtain ⟨d, hd, rfl⟩ := List.mem_map.mp hv
      rw [hexact d hd]
      simp
    rw [hover, hunder]
    simp

/-- C6 witness: two periods of demand, `units_per_capacity = 2`, exactly
matching capacity. -/
theorem evaluate_capacity_cost_spec_witness :
    (0 : ℚ) < 2 ∧
      evaluate_capacity_cost [(0, 3), (1, 4)] 2 ⟨(9 : ℚ)/10, 2, 5, 7⟩ = .ok 0 := by
  refine ⟨by norm_num, ?_⟩
  apply (evaluate_capacity_cost_spec [(0, 3), (1, 4)] 2 ⟨(9 : ℚ)/10, 2, 5, 7⟩
    (by norm_num)).2.2
  · intro d hd
    simp only [Series.values, List.map_cons, List.map_nil, List.mem_cons,
      List.not_mem_nil, or_false] at hd
    rcases hd with rfl | rfl
    · rw [Int.ceil_eq_iff]
      norm_num
    · rw [Int.ceil_eq_iff]
      norm_num
  · decide

/-- C2: for a non-empty forecast and a valid configuration,
`recommend_capacity` recommends the ceiling of the linear-interpolation
`service_level`-quantile of the forecast values divided by
`units_per_capacity`; that integer times `units_per_capacity` is at least
the quantile (no under-provisioning through rounding); an out-of-range
`service_level` or `units_per_capacity` yields the invalid-configuration
error. -/
theorem recommend_capacity_spec (demand_forecast : Series) (cfg : PlanningConfig)
    (hne : demand_forecast ≠ []) :
    ((1/2 ≤ cfg.service_level ∧ cfg.service_level < 1) → 0 < cfg.units_per_capacity →
      ∃ q r, npQuantile (Series.values demand_forecast) cfg.service_level = .ok q ∧
        recommend_capacity demand_forecast cfg = .ok r ∧
        r.recommended_capacity = ⌈q / cfg.units_per_capacity⌉ ∧
        q ≤ (r.recommended_capacity : ℚ) * cfg.units_per_capacity) ∧
    ((¬ (1/2 ≤ cfg.service_level ∧ cfg.service_level < 1) ∨ cfg.units_per_capacity ≤ 0) →
      ∃ msg, recommend_capacity demand_forecast cfg = .error (.valueError msg)) := by
  constructor
  · intro hsl hu
    have hvne : Series.values demand_forecast ≠ [] := by
      unfold Series.values
      simpa [List.map_eq_nil_iff] using hne
    refine ⟨linearQuantile (sortAsc (Series.values demand_forecast)) cfg.service_level,
      ⟨linearQuantile (sortAsc (Series.values demand_forecast)) cfg.service_level,
        cfg.units_per_capacity,
        ⌈linearQuantile (sortAsc (Series.values demand_forecast)) cfg.service_level /
          cfg.units_per_capacity⌉,
        cfg.over_capacity_cost, cfg.under_capacity_cost⟩, ?_, ?_, rfl, ?_⟩
    · unfold npQuantile
      rw [if_neg hvne]
    · unfold recommend_capacity
      rw [if_neg (not_not_intro hsl), if_neg (not_le.mpr hu)]
      unfold npQuantile
      rw [if_neg hvne]
      rfl
    · have hceil := Int.le_ceil
        (linearQuantile (sortAsc (Series.values demand_forecast)) cfg.service_level /
          cfg.units_per_capacity)
      exact (div_le_iff₀ hu).mp hceil
  · intro hbad
    by_cases hsl : 1/2 ≤ cfg.service_level ∧ cfg.service_level < 1
    · rcases hbad with hbad | hu
      · exact absurd hsl hbad
      · refine ⟨"units_per_capacity must be > 0.", ?_⟩
        unfold recommend_capacity
        rw [if_neg (not_not_intro hsl), if_pos hu]
    · refine ⟨"service_level should be in [0.5, 1.0).", ?_⟩
      unfold recommend_capacity
      rw [if_pos hsl]

/-- C2 witness: forecast `[10, 20]`, `service_level = 0.9`,
`units_per_capacity = 3`: the p90 quantile is `19`, the recommendation is
`ceil(19 / 3) = 7`, and `7 * 3 = 21 ≥ 19`. -/
theorem recommend_capacity_spec_witness :
    ([(0, 10), (1, 20)] : Series) ≠ [] ∧
      (1/2 ≤ (9 : ℚ)/10 ∧ (9 : ℚ)/10 < 1) ∧ (0 : ℚ) < 3 ∧
      (∃ q r, npQuantile (Series.values [(0, 10), (1, 20)]) ((9 : ℚ)/10) = .ok q ∧
        recommend_capacity [(0, 10), (1, 20)] ⟨(9 : ℚ)/10, 3, 1, 1⟩ = .ok r ∧
        r.recommended_capacity = ⌈q / (3 : ℚ)⌉ ∧
        q ≤ (r.recommended_capacity : ℚ) * 3) :=
  ⟨by decide, by norm_num, by norm_num,
    (recommend_capacity_spec [(0, 10), (1, 20)] ⟨(9 : ℚ)/10, 3, 1, 1⟩
      (by decide)).1 (by norm_num) (by norm_num)⟩

/-! ## Claims about the seasonal naive forecaster -/

theorem tile_length (l : List ℚ) (reps : Nat) : (tile l reps).length = reps * l.length := by
  unfold tile
  rw [List.length_flatten, List.map_replicate, List.sum_replicate, smul_eq_mul]

theorem tile_getD (l : List ℚ) (hl : l ≠ []) (reps : Nat) :
    ∀ k, k < reps * l.length → (tile l reps).getD k 0 = l.getD (k % l.length) 0 := by
  induction reps with
  | zero => intro k hk; omega
  | succ r ih =>
    intro k hk
    have hcons : tile l (r + 1) = l ++ tile l r := by
      unfold tile
      rw [List.replicate_succ, List.flatten_cons]
    rw [hcons]
    by_cases hkl : k < l.length
    · rw [List.getD_append _ _ _ _ hkl, Nat.mod_eq_of_lt hkl]
    · have hlen : 0 < l.length := List.length_pos.mpr hl
      obtain ⟨j, rfl⟩ : ∃ j, k = l.length + j := ⟨k - l.length, by omega⟩
      rw [List.getD_append_right _ _ _ _ (by omega), Nat.add_mod_left,
        Nat.add_sub_cancel_left]
      refine ih j ?_
      have hd : (r + 1) * l.length = r * l.length + l.length := by ring
      omega

theorem dateRange_length (start : Timestamp) (p : Nat) (freq : Int) :
    (dateRange start p freq).length = p := by
  unfold dateRange
  rw [List.length_map, List.length_range]

theorem dateRange_getD (start : Timestamp) (p : Nat) (freq : Int) (k : Nat) (hk : k < p) :
    (dateRange start p freq).getD k 0 = start + (k : Int) * freq := by
  unfold dateRange
  rw [List.getD_eq_getElem _ _ (by simpa [List.length_map, List.length_range] using hk)]
  simp

/-- The horizon is covered by the tiled repetitions:
`horizon ≤ ceil(horizon / season_length) * season_length`. -/
theorem le_reps_mul (h s : Nat) (hs : 0 < s) : h ≤ (h + s - 1) / s * s := by
  have heq := Nat.div_add_mod' (h + s - 1) s
  have hmod := Nat.mod_lt (h + s - 1) hs
  omega

/-- C5: a seasonal forecaster fitted on a history of length at least
`season_length` predicts, for every horizon `h > 0`, exactly `h`
timestamped values starting at `start` and spaced at `freq`, the value at
offset `k` being the stored history value at index
`len - season_length + (k mod season_length)`. -/
theorem seasonal_predict_spec (yhist : Series) (s : Nat) (hs : 0 < s)
    (hlen : s ≤ yhist.length) (start freq horizon : Int) (hh : 0 < horizon) :
    ∃ out,
      SeasonalNaiveForecaster.predict ⟨⟨(s : Int)⟩, some yhist⟩ start horizon freq = .ok out ∧
      out.length = horizon.toNat ∧
      ∀ k : Nat, k < horizon.toNat →
        out.getD k (0, 0) =
          (start + (k : Int) * freq,
           (Series.values yhist).getD (yhist.length - s + k % s) 0) := by
  unfold SeasonalNaiveForecaster.predict
  rw [if_neg (not_le.mpr hh)]
  refine ⟨_, rfl, ?_, ?_⟩
  all_goals simp only [Int.toNat_natCast]
  · rw [List.length_zip, dateRange_length, List.length_take, tile_length]
    have hls : ((Series.values yhist).drop (yhist.length - s)).length = s := by
      rw [List.length_drop]
      unfold Series.values
      rw [List.length_map]
      omega
    rw [hls]
    have := le_reps_mul horizon.toNat s hs
    omega
  · intro k hk
    have hvlen : (Series.values yhist).length = yhist.length := by
      unfold Series.values
      rw [List.length_map]
    have hls : ((Series.values yhist).drop (yhist.length - s)).length = s := by
      rw [List.length_drop]
      omega
    have hlast_ne : (Series.values yhist).drop (yhist.length - s) ≠ [] := by
      intro hnil
      rw [hnil] at hls
      simp at hls
      omega
    have hcov := le_reps_mul horizon.toNat s hs
    have htake_len :
        ((tile ((Series.values yhist).drop (yhist.length - s))
          ((horizon.toNat + s - 1) / s)).take horizon.toNat).length = horizon.toNat := by
      rw [List.length_take, tile_length, hls]
      omega
    have hzip_k : k < ((dateRange start horizon.toNat freq).zip
        ((tile ((Series.values yhist).drop (yhist.length - s))
          ((horizon.toNat + s - 1) / s)).take horizon.toNat)).length := by
      rw [List.length_zip, dateRange_length, htake_len]
      omega
    rw [List.getD_eq_getElem _ _ hzip_k, List.getElem_zip]
    have hkd : k < (dateRange start horizon.toNat freq).length := by
      rw [dateRange_length]
      omega
    have hkt : k < ((tile ((Series.values yhist).drop (yhist.length - s))
        ((horizon.toNat + s - 1) / s)).take horizon.toNat).length := by
      rw [htake_len]
      omega
    have h1 : getElem (dateRange start horizon.toNat freq) k hkd =
        start + (k : Int) * freq := by
      rw [← List.getD_eq_getElem _ 0 hkd]
      exact dateRange_getD start horizon.toNat freq k hk
    have h2 : getElem ((tile ((Series.values yhist).drop (yhist.length - s))
          ((horizon.toNat + s - 1) / s)).take horizon.toNat) k hkt =
        (Series.values yhist).getD (yhist.length - s + k % s) 0 := by
      rw [List.getElem_take]
      rw [← List.getD_eq_getElem _ 0 (by rw [tile_length, hls]; omega)]
      rw [tile_getD _ hlast_ne _ k (by rw [hls]; omega), hls]
      have hmod : k % s < s := Nat.mod_lt k hs
      rw [List.getD_eq_getElem _ 0 (by omega), List.getElem_drop,
        ← List.getD_eq_getElem _ 0 (by omega)]
    rw [h1, h2]

/-- C5 witness: the concrete example of the specification — history
`[0, 1, ..., 249]` (daily), `season_length = 7`, forecasting 14 steps from
day 250 repeats the values of days 243..249 twice. -/
theorem seasonal_predict_spec_witness :
    0 < 7 ∧ 7 ≤ ((List.range 250).map fun k : Nat => ((k : Int), (k : ℚ)) : Series).length ∧
      (0 : Int) < 14 ∧
      ∃ out,
        SeasonalNaiveForecaster.predict
          ⟨⟨((7 : Nat) : Int)⟩, some ((List.range 250).map fun k : Nat => ((k : Int), (k : ℚ)))⟩
          250 14 1 = .ok out ∧
        out.length = (14 : Int).toNat ∧
        ∀ k : Nat, k < (14 : Int).toNat →
          out.getD k (0, 0) =
            (250 + (k : Int) * 1,
             (Series.values ((List.range 250).map fun k : Nat => ((k : Int), (k : ℚ)))).getD
               (((List.range 250).map fun k : Nat => ((k : Int), (k : ℚ)) : Series).length - 7 + k % 7)
               0) :=
  ⟨by norm_num, by simp, by norm_num,
    seasonal_predict_spec ((List.range 250).map fun k : Nat => ((k : Int), (k : ℚ))) 7
      (by norm_num) (by simp) 250 1 14 (by norm_num)⟩

/-! ## Claims about the predict entry checks and the recursive forecaster -/

/-- C8 counterexample: on an unfitted seasonal forecaster called with
`horizon = 0`, `predict` raises the invalid-argument (horizon) error, not
the not-fit error — the horizon check precedes the fitted-state check in
both forecasters — so an unfitted `predict` does not fail with the not-fit
error for every combination of arguments. -/
theorem predict_not_fit_counterexample :
    SeasonalNaiveForecaster.predict ⟨⟨7⟩, none⟩ 0 0 1 =
        .error (.valueError "horizon must be > 0") ∧
      SeasonalNaiveForecaster.predict ⟨⟨7⟩, none⟩ 0 0 1 ≠
        .error (.runtimeError "Model must be fit before predicting.") := by
  constructor
  · rfl
  · intro h
    exact absurd (Except.error.inj h) (by simp)

/-- C8 (amended): for both forecaster variants, `predict` on an unfitted
model with a positive horizon fails with the not-fit error; `predict` with
`horizon ≤ 0` fails with the invalid-argument error regardless of fit
state (the horizon check runs first). -/
theorem predict_entry_checks (sm : SeasonalNaiveForecaster) (rm : RidgeForecaster)
    (start horizon freq : Int) :
    (0 < horizon → sm._y = none →
      sm.predict start horizon freq =
        .error (.runtimeError "Model must be fit before predicting.")) ∧
    (horizon ≤ 0 →
      sm.predict start horizon freq = .error (.valueError "horizon must be > 0")) ∧
    (0 < horizon → rm._y_train = none →
      rm.predict start horizon freq =
        .error (.runtimeError "Model must be fit before predicting.")) ∧
    (horizon ≤ 0 →
      rm.predict start horizon freq = .error (.valueError "horizon must be > 0")) := by
  refine ⟨?_, ?_, ?_, ?_⟩
  · intro hh hunfit
    unfold SeasonalNaiveForecaster.predict
    rw [if_neg (not_le.mpr hh), hunfit]
  · intro hh
    unfold SeasonalNaiveForecaster.predict
    rw [if_pos hh]
  · intro hh hunfit
    unfold RidgeForecaster.predict
    rw [if_neg (not_le.mpr hh), hunfit]
  · intro hh
    unfold RidgeForecaster.predict
    rw [if_pos hh]

/-- C8 witness: an unfitted seasonal forecaster with a positive horizon
gets the not-fit error; an unfitted recursive forecaster with a
non-positive horizon gets the invalid-argument error. -/
theorem predict_entry_checks_witness :
    (0 : Int) < 1 ∧
      SeasonalNaiveForecaster.predict ⟨⟨7⟩, none⟩ 0 1 1 =
        .error (.runtimeError "Model must be fit before predicting.") ∧
      RidgeForecaster.predict ⟨⟨[1], [2], 1⟩, (fun v => v.headD 0), none⟩ 0 0 1 =
        .error (.valueError "horizon must be > 0") :=
  ⟨by norm_num,
    (predict_entry_checks ⟨⟨7⟩, none⟩ ⟨⟨[1], [2], 1⟩, (fun v => v.headD 0), none⟩
      0 1 1).1 (by norm_num) rfl,
    (predict_entry_checks ⟨⟨7⟩, none⟩ ⟨⟨[1], [2], 1⟩, (fun v => v.headD 0), none⟩
      0 0 1).2.2.2 (by norm_num)⟩

/-- C9: the recursive multi-step loop of `RidgeForecaster.predict` extends
only a working copy local to the call: whenever `predict` returns, the
post-call forecaster state equals the pre-call state — in particular the
stored training history `_y_train` is unchanged — so an immediately
repeated call with the same arguments computes from the same stored
history and returns the same result. -/
theorem ridge_predict_preserves_history (m : RidgeForecaster) (start horizon freq : Int)
    (out : Series) (m' : RidgeForecaster)
    (h : m.predict start horizon freq = .ok (out, m')) :
    m' = m ∧ m'._y_train = m._y_train ∧
      m'.predict start horizon freq = m.predict start horizon freq := by
  have hm : m' = m := by
    unfold RidgeForecaster.predict at h
    by_cases hh : horizon ≤ 0
    · rw [if_pos hh] at h
      exact absurd h (by simp)
    · rw [if_neg hh] at h
      cases hy : m._y_train with
      | none => rw [hy] at h; exact absurd h (by simp)
      | some y_train =>
        rw [hy] at h
        obtain ⟨pr, _, hmap⟩ := except_map_ok h
        exact (Prod.mk.injEq _ _ _ _ ▸ hmap).2.symm ▸ rfl
  refine ⟨hm, by rw [hm], by rw [hm]⟩

/-- C9 witness: a concrete fitted recursive forecaster whose `predict`
succeeds and returns the state it started from. -/
theorem ridge_predict_preserves_history_witness :
    RidgeForecaster.predict
        ⟨⟨[1], [2], 1⟩, (fun v => v.headD 0), some [(0, 5), (1, 6)]⟩ 2 2 1 =
      .ok ([(2, 6), (3, 6)],
        ⟨⟨[1], [2], 1⟩, (fun v => v.headD 0), some [(0, 5), (1, 6)]⟩) ∧
    (⟨⟨[1], [2], 1⟩, (fun v => v.headD 0), some [(0, 5), (1, 6)]⟩ : RidgeForecaster)._y_train =
      (⟨⟨[1], [2], 1⟩, (fun v => v.headD 0), some [(0, 5), (1, 6)]⟩ : RidgeForecaster)._y_train :=
  ⟨rfl,
    (ridge_predict_preserves_history
      ⟨⟨[1], [2], 1⟩, (fun v => v.headD 0), some [(0, 5), (1, 6)]⟩ 2 2 1
      [(2, 6), (3, 6)]
      ⟨⟨[1], [2], 1⟩, (fun v => v.headD 0), some [(0, 5), (1, 6)]⟩ rfl).2.1⟩

/-! ## Backtest engine lemmas -/

theorem evaluate_capacity_cost_ok {a : Series} {c : Int} {p : PlanningConfig} {v : ℚ}
    (h : evaluate_capacity_cost a c p = .ok v) :
    0 ≤ c ∧ (0 ≤ p.over_capacity_cost → 0 ≤ p.under_capacity_cost → 0 ≤ v) := by
  unfold evaluate_capacity_cost at h
  by_cases hc : c < 0
  · rw [if_pos hc] at h
    exact absurd h (by simp)
  · rw [if_neg hc] at h
    simp only [List.map_map, Function.comp_def] at h
    refine ⟨not_lt.mp hc, ?_⟩
    intro hoc huc
    have hv := (Except.ok.inj h).symm
    subst hv
    apply add_nonneg
    · apply mul_nonneg hoc
      apply List.sum_nonneg
      intro x hx
      obtain ⟨d, _, rfl⟩ := List.mem_map.mp hx
      exact le_max_right _ _
    · apply mul_nonneg huc
      apply List.sum_nonneg
      intro x hx
      obtain ⟨d, _, rfl⟩ := List.mem_map.mp hx
      exact le_max_right _ _

/-- Inversion for one successful fold: the result record carries the fold
number and cutoff timestamp it was built from, and its capacity and cost
passed through `evaluate_capacity_cost`. -/
theorem runFold_ok {M : Type} {F : ForecasterImpl M} {mf : Unit → Except Err M}
    {y : Series} {freq : Int} {cfg : BacktestConfig} {sl u oc uc : ℚ}
    {fold : Nat} {cutoff_idx : Int} {r : BacktestResult}
    (h : runFold F mf y freq cfg sl u oc uc fold cutoff_idx = .ok r) :
    r.fold = fold ∧ r.cutoff = Series.ilocTs y cutoff_idx ∧
      0 ≤ r.recommended_capacity ∧
      (0 ≤ oc → 0 ≤ uc → 0 ≤ r.planning_cost) := by
  unfold runFold at h
  obtain ⟨model, hfac, h⟩ := except_bind_ok h
  obtain ⟨fitted, hfit, h⟩ := except_bind_ok h
  obtain ⟨preds, hpred, h⟩ := except_bind_ok h
  obtain ⟨preds_clean, hclean, h⟩ := except_bind_ok h
  obtain ⟨recRow, hrec, h⟩ := except_bind_ok h
  obtain ⟨cost, hcost, h⟩ := except_bind_ok h
  obtain ⟨maeV, hmae, h⟩ := except_bind_ok h
  obtain ⟨smapeV, hsmape, h⟩ := except_bind_ok h
  have hr := Except.ok.inj h
  subst hr
  have hev := evaluate_capacity_cost_ok hcost
  exact ⟨rfl, rfl, hev.1, hev.2⟩

/-- Inversion for the whole fold loop: on success the results correspond
one-to-one, in order, to the visited cutoff indices, with consecutive fold
numbers, and every result satisfies the per-fold facts of `runFold_ok`. -/
theorem backtestLoop_ok {M : Type} {F : ForecasterImpl M} {mf : Unit → Except Err M}
    {y : Series} {freq : Int} {cfg : BacktestConfig} {sl u oc uc : ℚ} {lastIdx : Int} :
    ∀ (fuel fold : Nat) (c : Int) (rs : List BacktestResult),
      backtestLoop F mf y freq cfg sl u oc uc lastIdx fuel fold c = .ok rs →
      rs.length = (cutoffLoop lastIdx cfg.step fuel c).length ∧
      ∀ j (hj : j < rs.length),
        (rs.get ⟨j, hj⟩).fold = fold + 1 + j ∧
        (rs.get ⟨j, hj⟩).cutoff =
          Series.ilocTs y ((cutoffLoop lastIdx cfg.step fuel c).getD j 0) ∧
        0 ≤ (rs.get ⟨j, hj⟩).recommended_capacity ∧
        (0 ≤ oc → 0 ≤ uc → 0 ≤ (rs.get ⟨j, hj⟩).planning_cost) := by
  intro fuel
  induction fuel with
  | zero =>
    intro fold c rs h
    exact absurd h (by simp [backtestLoop])
  | succ f ih =>
    intro fold c rs h
    unfold backtestLoop at h
    by_cases hc : c ≤ lastIdx
    · rw [if_pos hc] at h
      obtain ⟨r, hr, h⟩ := except_bind_ok h
      obtain ⟨rest, hrest, h⟩ := except_bind_ok h
      have hrs := (Except.ok.inj h).symm
      subst hrs
      have hrf := runFold_ok hr
      have hih := ih (fold + 1) (c + cfg.step) rest hrest
      unfold cutoffLoop
      rw [if_pos hc]
      refine ⟨by simp [hih.1], ?_⟩
      intro j hj
      cases j with
      | zero =>
        exact ⟨hrf.1, hrf.2.1, hrf.2.2.1, hrf.2.2.2⟩
      | succ j' =>
        have hj' : j' < rest.length := by simpa using hj
        have hstep := hih.2 j' hj'
        rw [List.get_cons_succ]
        refine ⟨by rw [hstep.1]; omega, ?_, hstep.2.2.1, hstep.2.2.2⟩
        rw [hstep.2.1]
        simp
    · rw [if_neg hc] at h
      have hrs := (Except.ok.inj h).symm
      subst hrs
      unfold cutoffLoop
      rw [if_neg hc]
      exact ⟨rfl, by intro j hj; exact absurd hj (by simp)⟩

/-- Membership characterisation of the cutoff loop: provided the fuel
dominates the distance to the last admissible index, the visited cutoffs
are exactly the arithmetic progression `c, c + step, c + 2*step, ...`
truncated at `lastIdx`. -/
theorem cutoffLoop_mem (lastIdx step : Int) (hstep : 0 < step) :
    ∀ (fuel : Nat) (c : Int), lastIdx < c + (fuel : Int) →
      ∀ i : Int, i ∈ cutoffLoop lastIdx step fuel c ↔
        ((∃ k : Nat, i = c + (k : Int) * step) ∧ i ≤ lastIdx) := by
  intro fuel
  induction fuel with
  | zero =>
    intro c hfuel i
    simp only [cutoffLoop, List.not_mem_nil, false_iff]
    rintro ⟨⟨k, rfl⟩, hle⟩
    have hk : 0 ≤ (k : Int) * step := mul_nonneg (by positivity) (le_of_lt hstep)
    simp only [Nat.cast_zero, add_zero] at hfuel
    omega
  | succ f ih =>
    intro c hfuel i
    unfold cutoffLoop
    by_cases hc : c ≤ lastIdx
    · rw [if_pos hc]
      simp only [List.mem_cons]
      have hfuel' : lastIdx < (c + step) + (f : Int) := by
        push_cast at hfuel
        omega
      rw [ih (c + step) hfuel' i]
      constructor
      · rintro (rfl | ⟨⟨k, rfl⟩, hle⟩)
        · exact ⟨⟨0, by simp⟩, hc⟩
        · exact ⟨⟨k + 1, by push_cast; ring⟩, hle⟩
      · rintro ⟨⟨k, rfl⟩, hle⟩
        cases k with
        | zero => left; simp
        | succ k' =>
          right
          exact ⟨⟨k', by push_cast; ring⟩, hle⟩
    · rw [if_neg hc]
      simp only [List.not_mem_nil, false_iff]
      rintro ⟨⟨k, rfl⟩, hle⟩
      have hk : 0 ≤ (k : Int) * step := mul_nonneg (by positivity) (le_of_lt hstep)
      omega

/-! ## Claims about the backtest engine -/

/-- A tiny concrete series and configuration on which the whole backtest
pipeline succeeds; used by concrete instantiations below. -/
def yTiny : Series := [(0, 1), (1, 1)]

/-- Backtest configuration for `yTiny`: horizon 1, step 1, one training
point. -/
def cfgTiny : BacktestConfig := ⟨1, 1, 1⟩

/-- C1: under a valid configuration (positive horizon, step and
`min_train_points`, enough data), the generated fold cutoffs are exactly
the indices `min_train_points - 1 + k * step` with `i + horizon < len(y)`,
and on success the returned fold results carry fold numbers `1..N` in
order, each with the cutoff timestamp of `y` at its cutoff index. -/
theorem backtest_cutoff_generation {M : Type} (F : ForecasterImpl M)
    (mf : Unit → Except Err M) (y : Series) (freq : Int) (cfg : BacktestConfig)
    (sl u oc uc : ℚ) (hh : 0 < cfg.horizon) (hs : 0 < cfg.step)
    (hm : 1 ≤ cfg.min_train_points)
    (hlen : cfg.min_train_points + cfg.horizon ≤ (y.length : Int)) :
    (∀ i : Int, i ∈ cutoffIndices cfg y.length ↔
      ((∃ k : Nat, i = cfg.min_train_points - 1 + (k : Int) * cfg.step) ∧
        i + cfg.horizon < (y.length : Int))) ∧
    ∀ rs, rolling_origin_backtest F mf y freq cfg sl u oc uc = .ok rs →
      rs.length = (cutoffIndices cfg y.length).length ∧
      ∀ j (hj : j < rs.length),
        (rs.get ⟨j, hj⟩).fold = j + 1 ∧
        (rs.get ⟨j, hj⟩).cutoff =
          (Series.index y).getD ((cutoffIndices cfg y.length).getD j 0).toNat 0 := by
  have hfuel : (y.length : Int) - cfg.horizon - 1 <
      (cfg.min_train_points - 1) + ((y.length + 1 : Nat) : Int) := by
    push_cast
    omega
  have hmem := cutoffLoop_mem ((y.length : Int) - cfg.horizon - 1) cfg.step hs
    (y.length + 1) (cfg.min_train_points - 1) hfuel
  have hchar : ∀ i : Int, i ∈ cutoffIndices cfg y.length ↔
      ((∃ k : Nat, i = cfg.min_train_points - 1 + (k : Int) * cfg.step) ∧
        i + cfg.horizon < (y.length : Int)) := by
    intro i
    unfold cutoffIndices
    rw [hmem i]
    constructor
    · rintro ⟨hk, hle⟩
      exact ⟨hk, by omega⟩
    · rintro ⟨hk, hlt⟩
      exact ⟨hk, by omega⟩
  refine ⟨hchar, ?_⟩
  intro rs hrun
  unfold rolling_origin_backtest at hrun
  rw [if_neg (by omega : ¬ (cfg.horizon ≤ 0 ∨ cfg.step ≤ 0)),
    if_neg (by omega : ¬ ((y.length : Int) < cfg.min_train_points + cfg.horizon))] at hrun
  have hloop := backtestLoop_ok (y.length + 1) 0 (cfg.min_train_points - 1) rs hrun
  have hlenEq : rs.length = (cutoffIndices cfg y.length).length := hloop.1
  refine ⟨hlenEq, ?_⟩
  intro j hj
  have hparts := hloop.2 j hj
  refine ⟨by rw [hparts.1]; omega, ?_⟩
  rw [hparts.2.1]
  have hjlen : j < (cutoffIndices cfg y.length).length := by
    rw [← hlenEq]
    exact hj
  have hmemj : (cutoffIndices cfg y.length).getD j 0 ∈ cutoffIndices cfg y.length := by
    rw [List.getD_eq_getElem _ _ hjlen]
    exact List.getElem_mem _
  obtain ⟨⟨k, hk⟩, _⟩ := (hchar _).mp hmemj
  have hknn : 0 ≤ (k : Int) * cfg.step :=
    mul_nonneg (by positivity) (le_of_lt hs)
  show Series.ilocTs y ((cutoffIndices cfg y.length).getD j 0) =
    (Series.index y).getD ((cutoffIndices cfg y.length).getD j 0).toNat 0
  unfold Series.ilocTs
  rw [if_neg (by omega : ¬ ((cutoffIndices cfg y.length).getD j 0 < 0))]

/-- C1 witness: the two-point series with horizon, step and
`min_train_points` all 1 — the single cutoff sits at index 0 and the one
returned fold is fold 1 with cutoff timestamp 0. -/
theorem backtest_cutoff_generation_witness :
    (0 : Int) < cfgTiny.horizon ∧ (0 : Int) < cfgTiny.step ∧
      (1 : Int) ≤ cfgTiny.min_train_points ∧
      cfgTiny.min_train_points + cfgTiny.horizon ≤ (yTiny.length : Int) ∧
      ((∀ i : Int, i ∈ cutoffIndices cfgTiny yTiny.length ↔
        ((∃ k : Nat, i = cfgTiny.min_train_points - 1 + (k : Int) * cfgTiny.step) ∧
          i + cfgTiny.horizon < (yTiny.length : Int))) ∧
      ∀ rs, rolling_origin_backtest seasonalImpl (build_seasonal_naive_factory 1)
          yTiny 1 cfgTiny ((9 : ℚ)/10) 1 1 1 = .ok rs →
        rs.length = (cutoffIndices cfgTiny yTiny.length).length ∧
        ∀ j (hj : j < rs.length),
          (rs.get ⟨j, hj⟩).fold = j + 1 ∧
          (rs.get ⟨j, hj⟩).cutoff =
            (Series.index yTiny).getD ((cutoffIndices cfgTiny yTiny.length).getD j 0).toNat 0) :=
  ⟨by decide, by decide, by decide, by decide,
    backtest_cutoff_generation seasonalImpl (build_seasonal_naive_factory 1) yTiny 1
      cfgTiny ((9 : ℚ)/10) 1 1 1 (by decide) (by decide) (by decide) (by decide)⟩

/-- C3: every fold result of a successful backtest run with non-negative
cost rates has a non-negative integer recommended capacity and a
non-negative planning cost. -/
theorem backtest_results_nonneg {M : Type} (F : ForecasterImpl M)
    (mf : Unit → Except Err M) (y : Series) (freq : Int) (cfg : BacktestConfig)
    (sl u oc uc : ℚ) (hoc : 0 ≤ oc) (huc : 0 ≤ uc) (rs : List BacktestResult)
    (h : rolling_origin_backtest F mf y freq cfg sl u oc uc = .ok rs) :
    ∀ r ∈ rs, 0 ≤ r.recommended_capacity ∧ 0 ≤ r.planning_cost := by
  unfold rolling_origin_backtest at h
  by_cases h1 : cfg.horizon ≤ 0 ∨ cfg.step ≤ 0
  · rw [if_pos h1] at h
    exact absurd h (by simp)
  · rw [if_neg h1] at h
    by_cases h2 : (y.length : Int) < cfg.min_train_points + cfg.horizon
    · rw [if_pos h2] at h
      exact absurd h (by simp)
    · rw [if_neg h2] at h
      have hloop := backtestLoop_ok (y.length + 1) 0 (cfg.min_train_points - 1) rs h
      intro r hr
      obtain ⟨⟨j, hj⟩, rfl⟩ := List.mem_iff_get.mp hr
      have hparts := hloop.2 j hj
      exact ⟨hparts.2.2.1, hparts.2.2.2 hoc huc⟩

/-- The backtest on `yTiny` succeeds, producing a single fold with cutoff
timestamp 0, zero errors, capacity 1 and cost 0. -/
theorem tiny_run :
    rolling_origin_backtest seasonalImpl (build_seasonal_naive_factory 1) yTiny 1
      cfgTiny ((9 : ℚ)/10) 1 1 1 = .ok [⟨1, 0, 1, 0, 0, 1, 0⟩] := by
  norm_num [rolling_origin_backtest, backtestLoop, runFold, yTiny, cfgTiny,
    seasonalImpl, build_seasonal_naive_factory, SeasonalNaiveForecaster.init,
    SeasonalNaiveForecaster.fit, SeasonalNaiveForecaster.predict, dateRange,
    Series.lookup, Series.index, Series.values, Series.ilocTs, predsClean,
    recommend_capacity, npQuantile, linearQuantile, sortAsc, insertSorted,
    evaluate_capacity_cost, mae, smape, _align, commonIdx, alignPairs, mean,
    defaultEps, tile, bind, Except.bind, Except.map, List.range_succ]

/-- C3 witness: the concrete successful run on `yTiny` returns exactly one
fold, with capacity 1 and cost 0, both non-negative. -/
theorem backtest_results_nonneg_witness :
    (0 : ℚ) ≤ 1 ∧
      rolling_origin_backtest seasonalImpl (build_seasonal_naive_factory 1) yTiny 1
        cfgTiny ((9 : ℚ)/10) 1 1 1 = .ok [⟨1, 0, 1, 0, 0, 1, 0⟩] ∧
      ∀ r ∈ [(⟨1, 0, 1, 0, 0, 1, 0⟩ : BacktestResult)],
        0 ≤ r.recommended_capacity ∧ 0 ≤ r.planning_cost :=
  ⟨by norm_num, tiny_run,
    backtest_results_nonneg seasonalImpl (build_seasonal_naive_factory 1) yTiny 1
      cfgTiny ((9 : ℚ)/10) 1 1 1 (by norm_num) (by norm_num)
      [⟨1, 0, 1, 0, 0, 1, 0⟩] tiny_run⟩

/-- C4 counterexample: with horizon and step positive and enough data
(`len = 3 ≥ min_train_points + horizon = 2`), a backtest whose forecaster
cannot be fitted (`season_length = 5` exceeds every training slice) aborts
with a fitting error instead of returning at least one fold result — so
"otherwise returns at least one fold result" fails as universally stated. -/
theorem backtest_at_least_one_fold_counterexample :
    (0 : Int) < 1 ∧ ¬ ((([(0, 1), (1, 1), (2, 1)] : Series).length : Int) < 1 + 1) ∧
      rolling_origin_backtest seasonalImpl (build_seasonal_naive_factory 5)
        [(0, 1), (1, 1), (2, 1)] 1 ⟨1, 1, 1⟩ ((9 : ℚ)/10) 1 1 1 =
        .error (.valueError "Not enough history to fit seasonal naive model.") :=
  ⟨by norm_num, by decide, by decide⟩

/-- C4 (amended): with positive horizon and step, the backtest raises the
insufficient-data error naming the required count
(`min_train_points + horizon`) and the available count (`len(y)`) whenever
`len(y) < min_train_points + horizon`; when the data suffices, every run
that returns successfully returns at least one fold result (a downstream
fitting or planning failure may still abort the run with another error). -/
theorem backtest_insufficient_data {M : Type} (F : ForecasterImpl M)
    (mf : Unit → Except Err M) (y : Series) (freq : Int) (cfg : BacktestConfig)
    (sl u oc uc : ℚ) (hh : 0 < cfg.horizon) (hs : 0 < cfg.step) :
    ((y.length : Int) < cfg.min_train_points + cfg.horizon →
      rolling_origin_backtest F mf y freq cfg sl u oc uc =
        .error (.insufficientData (cfg.min_train_points + cfg.horizon) (y.length : Int))) ∧
    (cfg.min_train_points + cfg.horizon ≤ (y.length : Int) →
      ∀ rs, rolling_origin_backtest F mf y freq cfg sl u oc uc = .ok rs →
        1 ≤ rs.length) := by
  constructor
  · intro hlen
    unfold rolling_origin_backtest
    rw [if_neg (by omega : ¬ (cfg.horizon ≤ 0 ∨ cfg.step ≤ 0)), if_pos hlen]
  · intro hlen rs h
    unfold rolling_origin_backtest at h
    rw [if_neg (by omega : ¬ (cfg.horizon ≤ 0 ∨ cfg.step ≤ 0)),
      if_neg (by omega : ¬ ((y.length : Int) < cfg.min_train_points + cfg.horizon))] at h
    unfold backtestLoop at h
    rw [if_pos (by omega :
      cfg.min_train_points - 1 ≤ (y.length : Int) - cfg.horizon - 1)] at h
    obtain ⟨r, hr, h⟩ := except_bind_ok h
    obtain ⟨rest, hrest, h⟩ := except_bind_ok h
    have hrs := (Except.ok.inj h).symm
    subst hrs
    simp

/-- C4 witness for the amended claim: a one-point series with
`min_train_points = 1`, `horizon = 1` triggers the insufficient-data error
naming required count 2 and available count 1. -/
theorem backtest_insufficient_data_witness :
    (0 : Int) < 1 ∧ (([((0 : Int), (1 : ℚ))] : Series).length : Int) < 1 + 1 ∧
      rolling_origin_backtest seasonalImpl (build_seasonal_naive_factory 1)
        [((0 : Int), (1 : ℚ))] 1 ⟨1, 1, 1⟩ ((9 : ℚ)/10) 1 1 1 =
        .error (.insufficientData (1 + 1) (([((0 : Int), (1 : ℚ))] : Series).length : Int)) :=
  ⟨by norm_num, by decide,
    (backtest_insufficient_data seasonalImpl (build_seasonal_naive_factory 1)
      [((0 : Int), (1 : ℚ))] 1 ⟨1, 1, 1⟩ ((9 : ℚ)/10) 1 1 1
      (by norm_num) (by norm_num)).1 (by decide)⟩

end Fcp
